import Mathlib

/-!
Shallow embedding of the simulation core of the `dnd` repository
(`src/world/world_state.py`, `src/world/event_system.py`,
`src/simulation/npc_ai.py`, `src/game/action_handler.py`,
`src/game/game_engine.py`, `src/entities/entity.py`), together with
theorems settling the frozen claims about it.

Modelling conventions:
* Python `int` is `Int`; Python strings are `String`.
* Python dicts with string keys (entity `properties`, action `data`)
  are association lists with unique keys, `dictGet`/`dictSet` mirroring
  `d.get(k, default)` and `d[k] = v` (update in place, insert at end).
* `WorldState._entities` (a dict keyed by `entity.id`, insertion
  ordered) is the list of entities in insertion order; the dict-key
  invariant is that the stored ids are `Nodup`.
* In-place mutation of an object that is also registered in the world
  is modelled by returning the updated object and, for the
  `ActionHandler` path, rewriting the registry entry (`updateEntity`),
  which is what the Python aliasing amounts to.
* A Python function that can raise is embedded as `Except String _`
  (the string is the exception class/message); a function whose body
  catches all exceptions is total.
* Callbacks of the event system are opaque: a callback together with
  its bound `args`/`kwargs` is modelled by an identity tag `cb` and the
  outcome `run` of invoking it (a returned value or a raised
  exception).
-/

namespace Dnd

/-- Position in the game world (`entity.py`, dataclass `Position`). -/
structure Position where
  x : Int
  y : Int
  location_id : String
deriving DecidableEq

/-- Values stored in the open `properties` / `data` dictionaries:
the shapes actually used by the core (ints, strings, booleans,
lists of positions, lists of strings). -/
inductive PValue where
  | int (i : Int)
  | str (s : String)
  | bool (b : Bool)
  | positions (l : List Position)
  | strs (l : List String)
deriving DecidableEq

/-- A Python `dict[str, Any]` as an association list with unique keys. -/
abbrev PropDict := List (String × PValue)

/-- Embedding of `d.get(key)` (first binding of the key). -/
def dictGet : PropDict → String → Option PValue
  | [], _ => none
  | (k, v) :: rest, key => if k = key then some v else dictGet rest key

/-- Embedding of `d[key] = v`: overwrite in place, else insert at the end
(Python dicts keep insertion order). -/
def dictSet : PropDict → String → PValue → PropDict
  | [], key, v => [(key, v)]
  | (k, w) :: rest, key, v =>
    if k = key then (k, v) :: rest else (k, w) :: dictSet rest key v

/-- Decidable equality of `Except` results, so that witnesses can be
checked by evaluation. -/
instance {ε α : Type} [DecidableEq ε] [DecidableEq α] :
    DecidableEq (Except ε α) := fun x y =>
  match x, y with
  | Except.ok a, Except.ok b =>
    if h : a = b then Decidable.isTrue (by rw [h])
    else Decidable.isFalse (fun hh => h (by injection hh))
  | Except.error a, Except.error b =>
    if h : a = b then Decidable.isTrue (by rw [h])
    else Decidable.isFalse (fun hh => h (by injection hh))
  | Except.ok _, Except.error _ =>
    Decidable.isFalse (fun hh => Except.noConfusion hh)
  | Except.error _, Except.ok _ =>
    Decidable.isFalse (fun hh => Except.noConfusion hh)

/-- Game entity (`entity.py`, dataclass `Entity`). -/
structure Entity where
  id : String
  position : Position
  properties : PropDict
deriving DecidableEq

/-- The plain-data shape `{id, position:{x,y,location_id}, properties}`
produced by `Entity.to_dict` and consumed on load. -/
structure EntityDict where
  id : String
  position : Position
  properties : PropDict
deriving DecidableEq

/-- Embedding of `Entity.to_dict` (`entity.py` lines 44-59): copies id,
position fields and the properties dict. -/
def Entity.to_dict (e : Entity) : EntityDict :=
  { id := e.id, position := e.position, properties := e.properties }

/-- Modelled from the spec: `Entity.from_dict` is referenced by
`WorldState.from_dict` (`world_state.py` line 124) and by the tests
(`tests/test_save_manager.py`), but no definition of it exists under
`src/` — `entity.py` defines only `to_dict`.  Per spec §6 the
persistence boundary is the exact inverse of the `to_dict` shape, so it
is modelled as reading back `id`, `position` and `properties`. -/
def Entity.from_dict (d : EntityDict) : Entity :=
  { id := d.id, position := d.position, properties := d.properties }

/-- World state (`world_state.py`): entity registry in insertion order
plus the internal tick counter. -/
structure WorldState where
  entities : List Entity
  time : Int
deriving DecidableEq

/-- Embedding of `WorldState.__init__`: empty registry, time 0. -/
def WorldState.init : WorldState := { entities := [], time := 0 }

/-- Embedding of `WorldState.add_entity` (`world_state.py` lines 39-51):
raises `ValueError` on a duplicate id, otherwise stores the entity. -/
def WorldState.add_entity (w : WorldState) (entity : Entity) :
    Except String WorldState :=
  if w.entities.any (fun e => e.id == entity.id) then
    Except.error ("Entity with id '" ++ entity.id ++ "' already exists")
  else
    Except.ok { w with entities := w.entities ++ [entity] }

/-- Embedding of `WorldState.remove_entity` (lines 53-66). -/
def WorldState.remove_entity (w : WorldState) (entity_id : String) :
    Bool × WorldState :=
  if w.entities.any (fun e => e.id == entity_id) then
    (true, { w with entities := w.entities.eraseP (fun e => e.id == entity_id) })
  else
    (false, w)

/-- Embedding of `WorldState.get_entity` (lines 68-77): dict lookup,
`None` when absent. -/
def WorldState.get_entity (w : WorldState) (entity_id : String) : Option Entity :=
  w.entities.find? (fun e => e.id == entity_id)

/-- Embedding of `WorldState.get_all_entity_ids` (lines 79-85). -/
def WorldState.get_all_entity_ids (w : WorldState) : List String :=
  w.entities.map (fun e => e.id)

/-- Embedding of `WorldState.tick` (lines 87-97): increment time by 1 and
return the new value. -/
def WorldState.tick (w : WorldState) : Int × WorldState :=
  (w.time + 1, { w with time := w.time + 1 })

/-- The plain-data shape `{time, entities}` of the persistence boundary;
`time` is optional because `from_dict` tolerates a missing key. -/
structure WorldDict where
  time : Option Int
  entities : List EntityDict

/-- Embedding of `WorldState.to_dict` (lines 99-109). -/
def WorldState.to_dict (w : WorldState) : WorldDict :=
  { time := some w.time, entities := w.entities.map Entity.to_dict }

/-- Embedding of `WorldState.from_dict` (lines 111-126): start from a
fresh world, set time with `data.get("time", 0)`, then re-register every
entity through the `add_entity` path (which can raise on duplicates). -/
def WorldState.from_dict (d : WorldDict) : Except String WorldState :=
  d.entities.foldlM
    (fun w ed => w.add_entity (Entity.from_dict ed))
    { entities := [], time := d.time.getD 0 }

/-- Little-endian decimal digits of `n`, computed with explicit fuel
(the first argument) so the definition is structural; with fuel ≥ n the
digits are exact. -/
def decDigits : Nat → Nat → List Nat
  | 0, _ => []
  | _ + 1, 0 => []
  | fuel + 1, n + 1 => (n + 1) % 10 :: decDigits fuel ((n + 1) / 10)

/-- Decimal rendering of a natural number, the embedding of Python's
`str(n)` / f-string interpolation of a non-negative `int` (digits of
`n` in base 10, most significant first; `"0"` for zero). -/
def pyIntStr (n : Nat) : String :=
  if n = 0 then "0" else ((decDigits n n).map Nat.digitChar).reverse.asString

/-- Value of a little-endian decimal digit list; left inverse of
`decDigits`, used to show decimal rendering is injective. -/
def ofDecDigits : List Nat → Nat
  | [] => 0
  | d :: ds => d + 10 * ofDecDigits ds

/-- The auto-generated event id `f"event_{n}"` of `event_system.py`
line 79. -/
def autoEventId (n : Nat) : String := "event_" ++ pyIntStr n

/-- Values returned by callbacks (opaque to the event system). -/
inductive PyVal where
  | none
  | int (i : Int)
  | str (s : String)
deriving DecidableEq

/-- Outcome of invoking a callback with its bound arguments: either a
returned value or a raised exception (its message). -/
inductive CbOutcome where
  | ok (v : PyVal)
  | raises (exc : String)
deriving DecidableEq

/-- Scheduled event (`event_system.py`, dataclass `ScheduledEvent`).
The callback together with its bound `args`/`kwargs` is abstracted to
an identity tag `cb` and the invocation outcome `run`; `event_id` is
always a string because `schedule` always fills it in. -/
structure ScheduledEvent where
  tick : Int
  cb : Nat
  run : CbOutcome
  event_id : String
deriving DecidableEq

/-- Event system state (`event_system.py`): flat event list in
scheduling order plus the auto-id counter. -/
structure EventSystem where
  events : List ScheduledEvent
  next_event_id : Nat
deriving DecidableEq

/-- Embedding of `EventSystem.__init__`. -/
def EventSystem.init : EventSystem := { events := [], next_event_id := 0 }

/-- Embedding of `EventSystem.schedule` (`event_system.py` lines 51-92):
rejects a negative tick with `ValueError`; generates `event_<n>` and
bumps the counter when no id is supplied; appends the event and returns
its id.  Note no uniqueness check is made on a caller-supplied id. -/
def EventSystem.schedule (es : EventSystem) (tick : Int) (cb : Nat)
    (run : CbOutcome) (event_id : Option String) :
    Except String (String × EventSystem) :=
  if tick < 0 then Except.error "Cannot schedule event at negative tick"
  else
    match event_id with
    | some eid =>
        Except.ok (eid,
          { es with events := es.events ++ [⟨tick, cb, run, eid⟩] })
    | none =>
        let eid := autoEventId es.next_event_id
        Except.ok (eid,
          { events := es.events ++ [⟨tick, cb, run, eid⟩],
            next_event_id := es.next_event_id + 1 })

/-- Result recorded for one dispatched event: the callback's return
value, or the caught exception (`event_system.py` lines 122-132). -/
inductive TickResult where
  | value (v : PyVal)
  | exc (e : String)
deriving DecidableEq

/-- Embedding of the `try/except` dispatch of one event inside
`EventSystem.tick`: a raised exception is caught and paired with the
event id instead of propagating. -/
def dispatchOne (e : ScheduledEvent) : String × TickResult :=
  (e.event_id,
    match e.run with
    | CbOutcome.ok v => TickResult.value v
    | CbOutcome.raises s => TickResult.exc s)

/-- Stable insertion step: place `x` after every element with a strictly
smaller tick and before everything else. -/
def insertByTick (x : ScheduledEvent) : List ScheduledEvent → List ScheduledEvent
  | [] => [x]
  | y :: ys => if y.tick < x.tick then y :: insertByTick x ys else x :: y :: ys

/-- Embedding of `events_to_fire.sort(key=lambda e: e.tick)`
(`event_system.py` line 114): Python's `list.sort` is a stable sort on
the key, which the insertion sort below implements (equal-tick events
keep their original relative order). -/
def sortByTick : List ScheduledEvent → List ScheduledEvent
  | [] => []
  | x :: xs => insertByTick x (sortByTick xs)

/-- Embedding of `EventSystem.tick` (`event_system.py` lines 94-137):
select every event with `tick ≤ current_tick`, return early if none,
stably sort the selection by tick, dispatch each (catching exceptions,
see `dispatchOne`), and drop the fired events from storage with
`[e for e in self._events if e not in events_to_fire]`. -/
def EventSystem.tick (es : EventSystem) (current_tick : Int) :
    List (String × TickResult) × EventSystem :=
  let events_to_fire := es.events.filter (fun e => e.tick ≤ current_tick)
  if events_to_fire.isEmpty then ([], es)
  else
    let fired := sortByTick events_to_fire
    let results := fired.map dispatchOne
    (results,
      { es with events := es.events.filter (fun e => ¬ (e ∈ events_to_fire)) })

/-- Embedding of `EventSystem.cancel_event` (lines 139-153): remove the
first event with a matching id, report whether one was found. -/
def EventSystem.cancel_event (es : EventSystem) (event_id : String) :
    Bool × EventSystem :=
  if es.events.any (fun e => e.event_id == event_id) then
    (true, { es with events := es.events.eraseP (fun e => e.event_id == event_id) })
  else
    (false, es)

/-- Embedding of `EventSystem.clear_all_events` (lines 181-190). -/
def EventSystem.clear_all_events (es : EventSystem) : Nat × EventSystem :=
  (es.events.length, { es with events := [] })

/-- One call against an `EventSystem` instance, for stating claims that
quantify over call sequences. -/
inductive ESOp where
  | schedule (tick : Int) (cb : Nat) (run : CbOutcome) (event_id : Option String)
  | tick (current_tick : Int)
  | cancel (event_id : String)
  | clear

/-- Run one call: a `schedule` that raises (negative tick) leaves the
state unchanged, as the exception fires before any mutation. -/
def runOp (es : EventSystem) (op : ESOp) : EventSystem :=
  match op with
  | ESOp.schedule t cb r eid =>
      match es.schedule t cb r eid with
      | Except.ok (_, es') => es'
      | Except.error _ => es
  | ESOp.tick c => (es.tick c).2
  | ESOp.cancel eid => (es.cancel_event eid).2
  | ESOp.clear => es.clear_all_events.2

/-- Run a call sequence from a fresh `EventSystem`. -/
def runOps (ops : List ESOp) : EventSystem := ops.foldl runOp EventSystem.init

/-- The caller-supplied event id of a call, if any. -/
def ESOp.suppliedId : ESOp → Option String
  | ESOp.schedule _ _ _ (some s) => some s
  | _ => Option.none

/-- Action intent (`npc_ai.py`, dataclass `Action`); `__post_init__`
turns a missing `data` into the empty dict, so `data` defaults to `[]`
here. -/
structure Action where
  action_type : String
  target_position : Option Position := Option.none
  target_entity_id : Option String := Option.none
  data : PropDict := []
deriving DecidableEq

/-- Embedding of `idle_behavior` (`npc_ai.py` lines 37-47). -/
def idle_behavior (npc : Entity) (world : WorldState) : Action :=
  { action_type := "idle" }

/-- Python list indexing `l[i]` with a possibly negative index: raises
`IndexError` when out of range. -/
def pyListGet (l : List Position) (i : Int) : Except String Position :=
  if 0 ≤ i then
    match l.get? i.toNat with
    | some a => Except.ok a
    | Option.none => Except.error "IndexError"
  else if 0 ≤ i + l.length then
    match l.get? (i + l.length).toNat with
    | some a => Except.ok a
    | Option.none => Except.error "IndexError"
  else Except.error "IndexError"

/-- Embedding of `patrol_behavior` (`npc_ai.py` lines 50-91).  The NPC's
in-place property write (`npc.properties["current_waypoint_index"] =
next_index`, line 83) is modelled by returning the updated entity next
to the action.  A `waypoints` / `current_waypoint_index` property of a
shape the Python code cannot index with raises (`TypeError` /
`IndexError`). -/
def patrol_behavior (npc : Entity) (world : WorldState) :
    Except String (Action × Entity) :=
  match dictGet npc.properties "waypoints" with
  | Option.none => Except.ok ({ action_type := "idle" }, npc)
  | some (PValue.positions waypoints) =>
    if waypoints.isEmpty then Except.ok ({ action_type := "idle" }, npc)
    else do
      let current_index : Int ←
        match dictGet npc.properties "current_waypoint_index" with
        | Option.none => Except.ok 0
        | some (PValue.int i) => Except.ok i
        | some _ => Except.error "TypeError"
      let target_waypoint ← pyListGet waypoints current_index
      if npc.position = target_waypoint then
        let next_index : Int := (current_index + 1) % (waypoints.length : Int)
        let props' := dictSet npc.properties "current_waypoint_index"
          (PValue.int next_index)
        let target' ← pyListGet waypoints next_index
        Except.ok
          ({ action_type := "move", target_position := some target',
             data := [("waypoint_index", PValue.int next_index)] },
           { npc with properties := props' })
      else
        Except.ok
          ({ action_type := "move", target_position := some target_waypoint,
             data := [("waypoint_index", PValue.int current_index)] },
           npc)
  | some _ => Except.error "TypeError"

/-- Python `v in hostile_to` for a property value against a list of
strings: only a string can match. -/
def pvalInStrList (v : PValue) (l : List String) : Bool :=
  match v with
  | PValue.str s => l.contains s
  | _ => false

/-- The scan loop of `attack_on_sight_behavior` (`npc_ai.py` lines
114-142): iterate over `world.get_all_entity_ids()`, skip self, missing
entities, other locations and non-hostile types, and keep the
closest-so-far candidate with Manhattan distance within range
(`closest_distance` starts at infinity, modelled by `Option.none`). -/
def scanForTarget (npc : Entity) (world : WorldState)
    (detection_range : Int) (hostile_to : List String) :
    Option (Entity × Int) :=
  world.get_all_entity_ids.foldl
    (fun closest entity_id =>
      if entity_id == npc.id then closest
      else
        match world.get_entity entity_id with
        | Option.none => closest
        | some entity =>
          if entity.position.location_id ≠ npc.position.location_id then closest
          else
            let entity_type := (dictGet entity.properties "type").getD (PValue.str "")
            if ¬ pvalInStrList entity_type hostile_to then closest
            else
              let distance : Int :=
                ((entity.position.x - npc.position.x).natAbs
                  + (entity.position.y - npc.position.y).natAbs : Nat)
              let closer : Bool :=
                match closest with
                | Option.none => true
                | some (_, d) => decide (distance < d)
              if decide (distance ≤ detection_range) && closer then
                some (entity, distance)
              else closest)
    Option.none

/-- Embedding of `attack_on_sight_behavior` (`npc_ai.py` lines 94-151):
read `detection_range` (default 5) and `hostile_to` (default
`["player"]`), scan, and return an attack on the closest qualifying
target or idle. -/
def attack_on_sight_behavior (npc : Entity) (world : WorldState) :
    Except String Action := do
  let detection_range : Int ←
    match dictGet npc.properties "detection_range" with
    | Option.none => Except.ok 5
    | some (PValue.int i) => Except.ok i
    | some _ => Except.error "TypeError"
  let hostile_to : List String ←
    match dictGet npc.properties "hostile_to" with
    | Option.none => Except.ok ["player"]
    | some (PValue.strs l) => Except.ok l
    | some _ => Except.error "TypeError"
  match scanForTarget npc world detection_range hostile_to with
  | some (closest_target, closest_distance) =>
      Except.ok
        { action_type := "attack",
          target_entity_id := some closest_target.id,
          data := [("distance", PValue.int closest_distance)] }
  | Option.none => Except.ok { action_type := "idle" }

/-- Embedding of `npc_ai.apply_action` (`npc_ai.py` lines 154-182): for
a move action with a target, step the npc's position one step per axis
toward it (in-place mutation modelled by returning the updated
entity); anything else leaves the npc untouched. -/
def apply_action (action : Action) (npc : Entity) (world : WorldState) : Entity :=
  if action.action_type = "move" then
    match action.target_position with
    | some tp =>
      let dx : Int :=
        if npc.position.x < tp.x then 1
        else if npc.position.x > tp.x then -1 else 0
      let dy : Int :=
        if npc.position.y < tp.y then 1
        else if npc.position.y > tp.y then -1 else 0
      { npc with position :=
          { npc.position with
            x := npc.position.x + dx, y := npc.position.y + dy } }
    | Option.none => npc
  else npc

/-- Rewrite the registry entry for `entity_id`: the effect, on the
world, of mutating in place an entity object that the registry also
holds (Python aliasing). -/
def updateEntity (w : WorldState) (entity_id : String) (f : Entity → Entity) :
    WorldState :=
  { w with entities := w.entities.map (fun e => if e.id == entity_id then f e else e) }

/-- Embedding of `ActionHandler._handle_move` (`action_handler.py` lines
63-109): fail without a target position; otherwise move the (already
looked-up) entity one signed step per axis, in place, and succeed. -/
def handle_move (w : WorldState) (action : Action) (entity : Entity) :
    Bool × WorldState :=
  match action.target_position with
  | Option.none => (false, w)
  | some target =>
    let dx : Int :=
      if entity.position.x < target.x then 1
      else if entity.position.x > target.x then -1 else 0
    let dy : Int :=
      if entity.position.y < target.y then 1
      else if entity.position.y > target.y then -1 else 0
    (true,
      updateEntity w entity.id
        (fun e => { e with position :=
          { e.position with x := e.position.x + dx, y := e.position.y + dy } }))

/-- Embedding of `ActionHandler._handle_attack` (lines 111-154): needs a
target id, an existing target, and a shared location; only logs on
success, so the world is untouched either way. -/
def handle_attack (w : WorldState) (action : Action) (entity : Entity) : Bool :=
  match action.target_entity_id with
  | Option.none => false
  | some tid =>
    match w.get_entity tid with
    | Option.none => false
    | some target =>
      if entity.position.location_id ≠ target.position.location_id then false
      else true

/-- Embedding of `ActionHandler._handle_idle` (lines 156-169). -/
def handle_idle (w : WorldState) (action : Action) (entity : Entity) : Bool :=
  true

/-- Embedding of `ActionHandler.handle_action` (lines 36-61): look up
the entity (failure when absent), then dispatch on the action type;
unknown types fail. -/
def handle_action (w : WorldState) (action : Action) (entity_id : String) :
    Bool × WorldState :=
  match w.get_entity entity_id with
  | Option.none => (false, w)
  | some entity =>
    if action.action_type = "move" then handle_move w action entity
    else if action.action_type = "attack" then (handle_attack w action entity, w)
    else if action.action_type = "idle" then (handle_idle w action entity, w)
    else (false, w)

/-- Engine mode (`game_engine.py`, enum `GameMode`). -/
inductive GameMode where
  | player
  | headless
deriving DecidableEq

/-- Game engine state (`game_engine.py`). -/
structure GameEngine where
  world : WorldState
  mode : GameMode
  running : Bool
deriving DecidableEq

/-- Embedding of `GameEngine.step` (`game_engine.py` lines 52-78): in
PLAYER mode an attached action is only logged; both modes advance the
world by exactly one tick and return the new time. -/
def GameEngine.step (g : GameEngine) (action : Option Action) :
    Int × GameEngine :=
  let r := g.world.tick
  (r.1, { g with world := r.2 })

/-- The `for i in range(ticks): self.world.tick()` loop of
`run_headless`. -/
def tickLoop : Nat → WorldState → WorldState
  | 0, w => w
  | n + 1, w => tickLoop n w.tick.2

/-- Embedding of `GameEngine.run_headless` (`game_engine.py` lines
80-107): raise `ValueError` on a negative count, else tick the world
that many times and return the final `world.time`. -/
def GameEngine.run_headless (g : GameEngine) (ticks : Int) :
    Except String (Int × GameEngine) :=
  if ticks < 0 then Except.error "Number of ticks must be non-negative"
  else
    let w' := tickLoop ticks.toNat g.world
    Except.ok (w'.time, { g with world := w' })

/-- `n` sequential `step()` calls with no action (the loop C6 compares
`run_headless` against). -/
def GameEngine.stepN : Nat → GameEngine → GameEngine
  | 0, g => g
  | n + 1, g => GameEngine.stepN n (g.step Option.none).2

/-- Sign of an integer difference, the function the spec uses to
describe the per-axis single step (`sign(target − current)` is −1, 0,
or +1). -/
def intSign (d : Int) : Int := if 0 < d then 1 else if d < 0 then -1 else 0

/-- Invariant of an `EventSystem` driven only through auto-generated
ids: every stored id is `event_<k>` with `k` below the counter, and the
stored ids are pairwise distinct. -/
def goodES (es : EventSystem) : Prop :=
  (∀ e ∈ es.events, ∃ k, k < es.next_event_id ∧ e.event_id = autoEventId k) ∧
  (es.events.map (fun e => e.event_id)).Nodup

/-! Concrete fixtures used by witnesses and counterexamples; they play
the role of the spec's concrete scenarios. -/

/-- Entity at `(0,0,"arena")` of the spec's move scenario. -/
def arenaEntity : Entity :=
  { id := "e", position := { x := 0, y := 0, location_id := "arena" },
    properties := [] }

/-- World holding only `arenaEntity`. -/
def arenaWorld : WorldState := { entities := [arenaEntity], time := 0 }

/-- Move action toward `(5,5,"arena")`. -/
def arenaMove : Action :=
  { action_type := "move",
    target_position := some { x := 5, y := 5, location_id := "arena" } }

/-- One handling of the arena move action, as a world transformer. -/
def arenaStep (w : WorldState) : WorldState :=
  (handle_action w arenaMove "e").2

/-- Attacker at `(0,0,"dungeon")` of the spec's attack scenario. -/
def dungeonAttacker : Entity :=
  { id := "atk", position := { x := 0, y := 0, location_id := "dungeon" },
    properties := [] }

/-- Target at `(1,1,"dungeon")`. -/
def dungeonTarget : Entity :=
  { id := "tgt", position := { x := 1, y := 1, location_id := "dungeon" },
    properties := [] }

/-- Target in the other location `"dungeon2"`. -/
def dungeonTarget2 : Entity :=
  { id := "tgt2", position := { x := 1, y := 1, location_id := "dungeon2" },
    properties := [] }

/-- World holding attacker and both targets. -/
def dungeonWorld : WorldState :=
  { entities := [dungeonAttacker, dungeonTarget, dungeonTarget2], time := 0 }

/-- Patrol NPC standing exactly on its current waypoint `(0,0,"test")`,
with a second waypoint `(3,0,"test")`. -/
def patrolNpc : Entity :=
  { id := "npc", position := { x := 0, y := 0, location_id := "test" },
    properties :=
      [("waypoints", PValue.positions
          [{ x := 0, y := 0, location_id := "test" },
           { x := 3, y := 0, location_id := "test" }]),
       ("current_waypoint_index", PValue.int 0)] }

/-- World holding only `patrolNpc`. -/
def patrolWorld : WorldState := { entities := [patrolNpc], time := 0 }

/-- The action `patrol_behavior` returns for `patrolNpc`: a move toward
the just-advanced waypoint `(3,0,"test")`. -/
def patrolAct : Action :=
  { action_type := "move",
    target_position := some { x := 3, y := 0, location_id := "test" },
    data := [("waypoint_index", PValue.int 1)] }

/-- `patrolNpc` after the behavior call: same position, waypoint index
advanced to 1 in its properties. -/
def patrolNpcAfter : Entity :=
  { id := "npc", position := { x := 0, y := 0, location_id := "test" },
    properties :=
      [("waypoints", PValue.positions
          [{ x := 0, y := 0, location_id := "test" },
           { x := 3, y := 0, location_id := "test" }]),
       ("current_waypoint_index", PValue.int 1)] }

/-- Event system after scheduling callbacks at ticks 20, 10, 15 in that
call order, all with auto-generated ids (`event_0`, `event_1`,
`event_2`). -/
def esTickOrder : EventSystem :=
  runOps
    [ESOp.schedule 20 0 (CbOutcome.ok PyVal.none) Option.none,
     ESOp.schedule 10 1 (CbOutcome.ok PyVal.none) Option.none,
     ESOp.schedule 15 2 (CbOutcome.ok PyVal.none) Option.none]

/-- Event system holding a callback that raises (`event_0` at tick 1)
followed by one that returns a value (`event_1` at tick 2). -/
def esRaises : EventSystem :=
  runOps
    [ESOp.schedule 1 0 (CbOutcome.raises "boom") Option.none,
     ESOp.schedule 2 1 (CbOutcome.ok (PyVal.int 9)) Option.none]

/-- World with two entities and advanced time, for the round-trip
witness. -/
def roundTripWorld : WorldState :=
  { entities :=
      [{ id := "e1", position := { x := 10, y := 20, location_id := "loc" },
         properties := [("hp", PValue.int 100)] },
       { id := "e2", position := { x := 30, y := 40, location_id := "loc" },
         properties := [] }],
    time := 5 }

/-- Fresh engine in player mode. -/
def freshEngine : GameEngine :=
  { world := WorldState.init, mode := GameMode.player, running := false }

/-- A call sequence using only auto-generated ids, interleaving
schedule, tick and cancel. -/
def autoOps : List ESOp :=
  [ESOp.schedule 20 0 (CbOutcome.ok PyVal.none) Option.none,
   ESOp.schedule 10 1 (CbOutcome.ok PyVal.none) Option.none,
   ESOp.tick 15,
   ESOp.cancel "event_0",
   ESOp.schedule 0 2 (CbOutcome.ok PyVal.none) Option.none,
   ESOp.schedule 3 3 (CbOutcome.raises "x") Option.none]

/-- The call sequence of the C5 counterexample: a caller-supplied id
`"event_0"` followed by an auto-generated one. -/
def collidingOps : List ESOp :=
  [ESOp.schedule 0 0 (CbOutcome.ok PyVal.none) (some "event_0"),
   ESOp.schedule 0 1 (CbOutcome.ok PyVal.none) Option.none]

/-! ## Helper lemmas -/

/-- The branching of `_handle_move` / `apply_action` computes exactly
the sign of the coordinate difference. -/
theorem stepSign_eq (cur tgt : Int) :
    (if cur < tgt then (1 : Int) else if cur > tgt then -1 else 0) =
      intSign (tgt - cur) := by
  unfold intSign
  split_ifs <;> omega

/-- A successful `find?` means the found element satisfies the
predicate. -/
theorem find?_pred {α : Type} (p : α → Bool) (l : List α) (a : α)
    (h : l.find? p = some a) : p a = true := by
  induction l with
  | nil => simp [List.find?] at h
  | cons x l ih =>
    rw [List.find?_cons] at h
    cases hpx : p x with
    | true =>
      rw [hpx] at h
      simp only [] at h
      injection h with h
      rw [← h]
      exact hpx
    | false =>
      rw [hpx] at h
      simp only [] at h
      exact ih h

/-- The entity returned by a successful `get_entity` carries the looked
up id. -/
theorem get_entity_id (w : WorldState) (entity_id : String) (e : Entity)
    (he : w.get_entity entity_id = some e) : e.id = entity_id := by
  unfold WorldState.get_entity at he
  have he' : List.find? (fun x => x.id == entity_id) w.entities = some e := he
  have h2 := find?_pred (fun x => x.id == entity_id) w.entities e he'
  simpa using h2

/-- `get_entity` after `updateEntity` on a present id (id-preserving
rewrite) yields the rewritten entity. -/
theorem get_entity_updateEntity (w : WorldState) (entity_id : String)
    (f : Entity → Entity) (e : Entity) (hf : ∀ x, (f x).id = x.id)
    (he : w.get_entity entity_id = some e) :
    (updateEntity w entity_id f).get_entity entity_id = some (f e) := by
  unfold WorldState.get_entity updateEntity
  unfold WorldState.get_entity at he
  rw [List.find?_map]
  have hpg : ((fun x => x.id == entity_id) ∘
      fun x => if x.id == entity_id then f x else x) =
      fun x => x.id == entity_id := by
    funext x
    by_cases hx : (x.id == entity_id) = true
    · simp [Function.comp, hx, hf]
    · simp [Function.comp, hx]
  rw [hpg, he]
  have he' : List.find? (fun x => x.id == entity_id) w.entities = some e := he
  have hpe : (e.id == entity_id) = true :=
    find?_pred (fun x => x.id == entity_id) w.entities e he'
  have hid : e.id = entity_id := by simpa using hpe
  simp [hid]

/-- Unfolding of `handle_action` once the entity lookup succeeds. -/
theorem handle_action_eq (w : WorldState) (a : Action) (entity_id : String)
    (e : Entity) (he : w.get_entity entity_id = some e) :
    handle_action w a entity_id =
      if a.action_type = "move" then handle_move w a e
      else if a.action_type = "attack" then (handle_attack w a e, w)
      else if a.action_type = "idle" then (handle_idle w a e, w)
      else (false, w) := by
  unfold handle_action
  rw [he]

/-- Unfolding of `handle_move` with a present target, phrased with the
spec's sign function. -/
theorem handle_move_eq (w : WorldState) (a : Action) (e : Entity) (t : Position)
    (ht : a.target_position = some t) :
    handle_move w a e =
      (true, updateEntity w e.id (fun x =>
        { x with position :=
          { x.position with
            x := x.position.x + intSign (t.x - e.position.x),
            y := x.position.y + intSign (t.y - e.position.y) } })) := by
  unfold handle_move
  rw [ht]
  simp only [stepSign_eq]

/-- The headless loop adds exactly its count to the world time. -/
theorem tickLoop_time (n : Nat) (w : WorldState) :
    (tickLoop n w).time = w.time + n := by
  induction n generalizing w with
  | zero => simp [tickLoop]
  | succ n ih => simp [tickLoop, WorldState.tick, ih]; omega

/-- The headless loop never touches the entity registry. -/
theorem tickLoop_entities (n : Nat) (w : WorldState) :
    (tickLoop n w).entities = w.entities := by
  induction n generalizing w with
  | zero => simp [tickLoop]
  | succ n ih => simp [tickLoop, WorldState.tick, ih]

/-- `n` action-less `step()` calls are the headless loop on the world,
leaving the rest of the engine unchanged. -/
theorem stepN_eq (n : Nat) (g : GameEngine) :
    GameEngine.stepN n g = { g with world := tickLoop n g.world } := by
  induction n generalizing g with
  | zero => simp [GameEngine.stepN, tickLoop]
  | succ n ih => simp [GameEngine.stepN, GameEngine.step, tickLoop, ih]

/-! ## Claims -/

/-- Claim C6: `GameEngine.run_headless(n)` fails with `InvalidArgument`
(`ValueError`) for every `n < 0`; for every `n ≥ 0` it ticks the world
exactly `n` times, so `world.time` increases by exactly `n`, the final
time is returned, the registry is untouched, and the run is equivalent
to `n` sequential `step()` calls with no action. -/
theorem claim_C6 (g : GameEngine) (n : Int) :
    (n < 0 → g.run_headless n =
      Except.error "Number of ticks must be non-negative") ∧
    (0 ≤ n →
      g.run_headless n =
        Except.ok ((GameEngine.stepN n.toNat g).world.time,
          GameEngine.stepN n.toNat g) ∧
      (GameEngine.stepN n.toNat g).world.time = g.world.time + n ∧
      (GameEngine.stepN n.toNat g).world.entities = g.world.entities) := by
  constructor
  · intro h
    simp [GameEngine.run_headless, h]
  · intro h
    have hn : ¬ n < 0 := not_lt.mpr h
    refine ⟨?_, ?_, ?_⟩
    · simp [GameEngine.run_headless, hn, stepN_eq]
    · rw [stepN_eq]
      simp [tickLoop_time, Int.toNat_of_nonneg h]
    · rw [stepN_eq]
      simp [tickLoop_entities]

/-- Witness for C6 at the spec's concrete inputs: `run_headless(-1)`
raises, `run_headless(50)` advances time by exactly 50. -/
theorem claim_C6_witness :
    freshEngine.run_headless (-1) =
      Except.error "Number of ticks must be non-negative" ∧
    (freshEngine.run_headless 50 =
      Except.ok ((GameEngine.stepN (Int.toNat 50) freshEngine).world.time,
        GameEngine.stepN (Int.toNat 50) freshEngine) ∧
     (GameEngine.stepN (Int.toNat 50) freshEngine).world.time =
       freshEngine.world.time + 50 ∧
     (GameEngine.stepN (Int.toNat 50) freshEngine).world.entities =
       freshEngine.world.entities) :=
  ⟨(claim_C6 freshEngine (-1)).1 (by decide),
   (claim_C6 freshEngine 50).2 (by decide)⟩

/-- Claim C7: for an entity registered in the world, a move action with
a target displaces the entity in place by exactly the per-axis sign of
the difference (each component −1, 0 or +1), returning true even when
already at the target; a move action without `target_position` returns
false; and the concrete arena scenario: one handling moves
`(0,0,"arena")` to `(1,1,"arena")`, three handlings to `(3,3,"arena")`. -/
theorem claim_C7 :
    (∀ (w : WorldState) (a : Action) (entity_id : String) (e : Entity),
      w.get_entity entity_id = some e →
      a.action_type = "move" →
      ((a.target_position = Option.none →
          handle_action w a entity_id = (false, w)) ∧
       ∀ t, a.target_position = some t →
         (handle_action w a entity_id).1 = true ∧
         (handle_action w a entity_id).2.get_entity entity_id =
           some { e with position :=
             { x := e.position.x + intSign (t.x - e.position.x),
               y := e.position.y + intSign (t.y - e.position.y),
               location_id := e.position.location_id } } ∧
         (intSign (t.x - e.position.x) = -1 ∨ intSign (t.x - e.position.x) = 0 ∨
           intSign (t.x - e.position.x) = 1) ∧
         (intSign (t.y - e.position.y) = -1 ∨ intSign (t.y - e.position.y) = 0 ∨
           intSign (t.y - e.position.y) = 1))) ∧
    (((arenaStep arenaWorld).get_entity "e").map (fun e => e.position) =
        some { x := 1, y := 1, location_id := "arena" } ∧
     ((arenaStep (arenaStep (arenaStep arenaWorld))).get_entity "e").map
        (fun e => e.position) =
        some { x := 3, y := 3, location_id := "arena" }) := by
  constructor
  · intro w a entity_id e he ha
    have hact : handle_action w a entity_id = handle_move w a e := by
      rw [handle_action_eq w a entity_id e he]
      simp [ha]
    constructor
    · intro ht
      rw [hact]
      unfold handle_move
      rw [ht]
    · intro t ht
      have hid : e.id = entity_id := get_entity_id w entity_id e he
      rw [hact, handle_move_eq w a e t ht]
      refine ⟨rfl, ?_, ?_, ?_⟩
      · have hup := get_entity_updateEntity w entity_id
          (fun x => { x with position :=
            { x.position with
              x := x.position.x + intSign (t.x - e.position.x),
              y := x.position.y + intSign (t.y - e.position.y) } }) e
          (fun x => rfl) he
        rw [hid, hup]
        simp [hid]
      · simp only [intSign]; split_ifs <;> omega
      · simp only [intSign]; split_ifs <;> omega
  · exact ⟨by decide, by decide⟩

/-- Witness for C7: the arena entity is registered and the move handling
succeeds. -/
theorem claim_C7_witness :
    arenaWorld.get_entity "e" = some arenaEntity ∧
    (handle_action arenaWorld arenaMove "e").1 = true :=
  ⟨by decide,
   ((claim_C7.1 arenaWorld arenaMove "e" arenaEntity (by decide) rfl).2
      { x := 5, y := 5, location_id := "arena" } rfl).1⟩

/-- Claim C8: for every registered entity, world, and move action, the
`ActionHandler._handle_move` path (via `handle_action`) and the
`npc_ai.apply_action` path leave the entity at the same final position
— the identical single-step-per-axis displacement when a target is
present, and an unchanged position when it is absent. -/
theorem claim_C8 (w : WorldState) (a : Action) (entity_id : String)
    (npc : Entity) (he : w.get_entity entity_id = some npc)
    (ha : a.action_type = "move") :
    ∃ npc', (handle_action w a entity_id).2.get_entity entity_id = some npc' ∧
      npc'.position = (apply_action a npc w).position := by
  have hid : npc.id = entity_id := get_entity_id w entity_id npc he
  have hact : handle_action w a entity_id = handle_move w a npc := by
    rw [handle_action_eq w a entity_id npc he]
    simp [ha]
  rw [hact]
  unfold handle_move apply_action
  cases ht : a.target_position with
  | none =>
    refine ⟨npc, ?_, ?_⟩
    · exact he
    · simp [ha, ht]
  | some t =>
    simp only [ha, ht, if_pos rfl]
    refine ⟨_, ?_, rfl⟩
    have hup := get_entity_updateEntity w entity_id
      (fun x => { x with position :=
        { x.position with
          x := x.position.x +
            (if npc.position.x < t.x then 1
             else if npc.position.x > t.x then -1 else 0),
          y := x.position.y +
            (if npc.position.y < t.y then 1
             else if npc.position.y > t.y then -1 else 0) } }) npc
      (fun x => rfl) he
    rw [hid, hup]
    simp [hid]

/-- Witness for C8 at the arena fixture. -/
theorem claim_C8_witness :
    arenaWorld.get_entity "e" = some arenaEntity ∧
    arenaMove.action_type = "move" ∧
    ∃ npc', (handle_action arenaWorld arenaMove "e").2.get_entity "e" =
        some npc' ∧
      npc'.position = (apply_action arenaMove arenaEntity arenaWorld).position :=
  ⟨by decide, rfl, claim_C8 arenaWorld arenaMove "e" arenaEntity (by decide) rfl⟩

/-- Claim C9: for a registered attacker, `handle_action` on an attack
action returns true exactly when the action carries a target id, the
target exists, and both entities share a location; every failing case
returns false (no exception, the embedding is total), and the world is
never modified; plus the concrete dungeon scenario. -/
theorem claim_C9 :
    (∀ (w : WorldState) (a : Action) (entity_id : String) (attacker : Entity),
      w.get_entity entity_id = some attacker →
      a.action_type = "attack" →
      (((handle_action w a entity_id).1 = true ↔
        ∃ tid target, a.target_entity_id = some tid ∧
          w.get_entity tid = some target ∧
          attacker.position.location_id = target.position.location_id) ∧
       (handle_action w a entity_id).2 = w)) ∧
    ((handle_action dungeonWorld
        { action_type := "attack", target_entity_id := some "tgt" }
        "atk").1 = true ∧
     (handle_action dungeonWorld
        { action_type := "attack", target_entity_id := some "tgt2" }
        "atk").1 = false) := by
  constructor
  · intro w a entity_id attacker he ha
    have hact : handle_action w a entity_id = (handle_attack w a attacker, w) := by
      rw [handle_action_eq w a entity_id attacker he]
      simp [ha]
    rw [hact]
    refine ⟨?_, rfl⟩
    cases hti : a.target_entity_id with
    | none =>
      have hval : handle_attack w a attacker = false := by
        unfold handle_attack
        simp only [hti]
      rw [hval]
      constructor
      · intro h
        simp at h
      · rintro ⟨tid', target, h1, h2, h3⟩
        simp at h1
    | some tid =>
      cases htg : w.get_entity tid with
      | none =>
        have hval : handle_attack w a attacker = false := by
          unfold handle_attack
          simp only [hti, htg]
        rw [hval]
        constructor
        · intro h
          simp at h
        · rintro ⟨tid', target, h1, h2, h3⟩
          injection h1 with h1
          subst h1
          rw [htg] at h2
          simp at h2
      | some target =>
        by_cases hloc : attacker.position.location_id ≠ target.position.location_id
        · have hval : handle_attack w a attacker = false := by
            unfold handle_attack
            simp only [hti, htg]
            rw [if_pos hloc]
          rw [hval]
          constructor
          · intro h
            simp at h
          · rintro ⟨tid', target', h1, h2, h3⟩
            injection h1 with h1
            subst h1
            rw [htg] at h2
            injection h2 with h2
            subst h2
            exact absurd h3 hloc
        · have hval : handle_attack w a attacker = true := by
            unfold handle_attack
            simp only [hti, htg]
            rw [if_neg hloc]
          rw [hval]
          constructor
          · intro _
            exact ⟨tid, target, rfl, htg, not_ne_iff.mp hloc⟩
          · intro _
            rfl
  · exact ⟨by decide, by decide⟩

/-- Witness for C9: the dungeon attacker is registered and an attack
leaves the world unchanged. -/
theorem claim_C9_witness :
    dungeonWorld.get_entity "atk" = some dungeonAttacker ∧
    (handle_action dungeonWorld
      { action_type := "attack", target_entity_id := some "tgt" }
      "atk").2 = dungeonWorld :=
  ⟨by decide,
   (claim_C9.1 dungeonWorld
      { action_type := "attack", target_entity_id := some "tgt" }
      "atk" dungeonAttacker (by decide) rfl).2⟩

/-- Claim C10: for every action whose type is not `"move"` (attack,
idle, or unknown) and every entity id, `handle_action` leaves the whole
`WorldState` — registry, time, every entity — unchanged, whatever
boolean it returns. -/
theorem claim_C10 (w : WorldState) (a : Action) (entity_id : String)
    (h : a.action_type ≠ "move") :
    (handle_action w a entity_id).2 = w := by
  unfold handle_action
  cases hw : w.get_entity entity_id with
  | none => rfl
  | some e =>
    simp only []
    rw [if_neg h]
    split_ifs <;> rfl

/-- Witness for C10 over an attack, an idle, and an unknown action
type. -/
theorem claim_C10_witness :
    (handle_action dungeonWorld
      { action_type := "attack", target_entity_id := some "tgt" }
      "atk").2 = dungeonWorld ∧
    (handle_action dungeonWorld { action_type := "idle" } "atk").2 =
      dungeonWorld ∧
    (handle_action dungeonWorld { action_type := "fly" } "atk").2 =
      dungeonWorld :=
  ⟨claim_C10 dungeonWorld _ "atk" (by decide),
   claim_C10 dungeonWorld _ "atk" (by decide),
   claim_C10 dungeonWorld _ "atk" (by decide)⟩

/-- Bind on a successful `Except` computation runs the continuation. -/
theorem except_bind_ok {ε α β : Type} (a : α) (f : α → Except ε β) :
    (Except.ok a >>= f) = f a := rfl

/-- Re-registering a list of serialized entities through the
`add_entity` path succeeds and appends them in order, as long as no id
collides. -/
theorem from_dict_fold (l : List Entity) :
    ∀ acc : WorldState,
      (((acc.entities ++ l).map (fun e => e.id)).Nodup) →
      (l.map Entity.to_dict).foldlM
          (fun w ed => w.add_entity (Entity.from_dict ed)) acc
        = Except.ok { entities := acc.entities ++ l, time := acc.time } := by
  induction l with
  | nil =>
    intro acc h
    simp only [List.map_nil, List.foldlM_nil, List.append_nil]
    rfl
  | cons e l ih =>
    intro acc h
    have hdisj : List.Disjoint (acc.entities.map (fun x => x.id))
        ((e :: l).map (fun x => x.id)) := by
      rw [List.map_append] at h
      exact List.disjoint_of_nodup_append h
    have hnot : acc.entities.any (fun x => x.id == e.id) = false := by
      rw [List.any_eq_false]
      intro x hx
      simp only [beq_iff_eq]
      intro hxe
      exact hdisj (List.mem_map_of_mem _ hx)
        (by rw [hxe]; exact List.mem_map_of_mem _ (List.mem_cons_self e l))
    have hfd : Entity.from_dict (Entity.to_dict e) = e := rfl
    have hadd : acc.add_entity (Entity.from_dict (Entity.to_dict e)) =
        Except.ok { acc with entities := acc.entities ++ [e] } := by
      rw [hfd]
      unfold WorldState.add_entity
      rw [hnot]
      simp
    rw [List.map_cons, List.foldlM_cons, hadd, except_bind_ok]
    have h2 : ((({ acc with entities := acc.entities ++ [e] } :
        WorldState).entities ++ l).map (fun x => x.id)).Nodup := by
      simpa [List.append_assoc] using h
    rw [ih { acc with entities := acc.entities ++ [e] } h2]
    simp

/-- Claim C1: serialization round-trip — for every `WorldState` (with
the dict-representation invariant that stored ids are distinct),
`from_dict (to_dict w)` succeeds, re-registers the entities through the
`add_entity` path, and yields the same entity count, the same ids, and
the same time.  `Entity.from_dict` is spec-modelled (missing from
`src/`, see its doc comment). -/
theorem claim_C1 (w : WorldState)
    (h : (w.entities.map (fun e => e.id)).Nodup) :
    ∃ w', WorldState.from_dict (WorldState.to_dict w) = Except.ok w' ∧
      w'.entities.length = w.entities.length ∧
      w'.entities.map (fun e => e.id) = w.entities.map (fun e => e.id) ∧
      w'.time = w.time := by
  refine ⟨w, ?_, rfl, rfl, rfl⟩
  unfold WorldState.from_dict WorldState.to_dict
  have := from_dict_fold w.entities { entities := [], time := w.time }
    (by simpa using h)
  simpa using this

/-- Witness for C1 at a two-entity world with advanced time. -/
theorem claim_C1_witness :
    (roundTripWorld.entities.map (fun e => e.id)).Nodup ∧
    ∃ w', WorldState.from_dict (WorldState.to_dict roundTripWorld) =
        Except.ok w' ∧
      w'.entities.length = roundTripWorld.entities.length ∧
      w'.entities.map (fun e => e.id) =
        roundTripWorld.entities.map (fun e => e.id) ∧
      w'.time = roundTripWorld.time :=
  ⟨by decide, claim_C1 roundTripWorld (by decide)⟩

/-- Insertion keeps the same elements (as a permutation). -/
theorem insertByTick_perm (x : ScheduledEvent) (l : List ScheduledEvent) :
    List.Perm (insertByTick x l) (x :: l) := by
  induction l with
  | nil => exact List.Perm.refl _
  | cons y ys ih =>
    unfold insertByTick
    by_cases h : y.tick < x.tick
    · rw [if_pos h]
      exact List.Perm.trans (List.Perm.cons y ih) (List.Perm.swap x y ys)
    · rw [if_neg h]

/-- The stable sort permutes its input. -/
theorem sortByTick_perm (l : List ScheduledEvent) :
    List.Perm (sortByTick l) l := by
  induction l with
  | nil => exact List.Perm.refl _
  | cons x xs ih =>
    unfold sortByTick
    exact List.Perm.trans (insertByTick_perm x (sortByTick xs))
      (List.Perm.cons x ih)

/-- Insertion into a tick-sorted list keeps it tick-sorted. -/
theorem insertByTick_sorted (x : ScheduledEvent) (l : List ScheduledEvent)
    (h : l.Pairwise (fun a b => a.tick ≤ b.tick)) :
    (insertByTick x l).Pairwise (fun a b => a.tick ≤ b.tick) := by
  induction l with
  | nil => simp [insertByTick]
  | cons y ys ih =>
    unfold insertByTick
    rcases List.pairwise_cons.mp h with ⟨hy, hys⟩
    by_cases hlt : y.tick < x.tick
    · rw [if_pos hlt]
      rw [List.pairwise_cons]
      constructor
      · intro z hz
        rcases List.mem_cons.mp ((insertByTick_perm x ys).mem_iff.mp hz) with
          rfl | hz'
        · exact le_of_lt hlt
        · exact hy z hz'
      · exact ih hys
    · rw [if_neg hlt]
      rw [List.pairwise_cons]
      constructor
      · intro z hz
        rcases List.mem_cons.mp hz with rfl | hz'
        · exact le_of_not_lt hlt
        · exact le_trans (le_of_not_lt hlt) (hy z hz')
      · exact h

/-- The stable sort output is tick-sorted. -/
theorem sortByTick_sorted (l : List ScheduledEvent) :
    (sortByTick l).Pairwise (fun a b => a.tick ≤ b.tick) := by
  induction l with
  | nil => simp [sortByTick]
  | cons x xs ih =>
    unfold sortByTick
    exact insertByTick_sorted x (sortByTick xs) ih

/-- Stability of insertion: restricting to one tick value, insertion
leaves the sequence as if `x` had simply been consed in front. -/
theorem insertByTick_filter (x : ScheduledEvent) (l : List ScheduledEvent)
    (t : Int) :
    (insertByTick x l).filter (fun e => e.tick == t) =
      (x :: l).filter (fun e => e.tick == t) := by
  induction l with
  | nil => rfl
  | cons y ys ih =>
    unfold insertByTick
    by_cases hlt : y.tick < x.tick
    · rw [if_pos hlt]
      by_cases hyt : (y.tick == t) = true
      · by_cases hxt : (x.tick == t) = true
        · exfalso
          have h1 : y.tick = t := by simpa using hyt
          have h2 : x.tick = t := by simpa using hxt
          omega
        · simp only [List.filter_cons, hyt, hxt, if_true, if_false, ih,
            Bool.false_eq_true]
      · by_cases hxt : (x.tick == t) = true
        · simp only [List.filter_cons, hyt, hxt, if_true, if_false, ih,
            Bool.false_eq_true]
        · simp only [List.filter_cons, hyt, hxt, if_true, if_false, ih,
            Bool.false_eq_true]
    · rw [if_neg hlt]

/-- Stability of the sort: restricting to one tick value, the sorted
list lists exactly the input's events of that tick, in input order. -/
theorem sortByTick_filter (l : List ScheduledEvent) (t : Int) :
    (sortByTick l).filter (fun e => e.tick == t) =
      l.filter (fun e => e.tick == t) := by
  induction l with
  | nil => rfl
  | cons x xs ih =>
    unfold sortByTick
    rw [insertByTick_filter]
    simp only [List.filter_cons]
    by_cases hxt : (x.tick == t) = true <;> simp [hxt, ih]

/-- The results of `EventSystem.tick` are the due events, stably sorted
by tick, each dispatched once. -/
theorem esTick_results (es : EventSystem) (c : Int) :
    (es.tick c).1 =
      (sortByTick (es.events.filter (fun e => e.tick ≤ c))).map dispatchOne := by
  unfold EventSystem.tick
  dsimp only
  split
  · rename_i h
    have hnil : es.events.filter (fun e => e.tick ≤ c) = [] := by
      simpa [List.isEmpty_iff] using h
    simp [hnil, sortByTick]
  · rfl

/-- After `EventSystem.tick`, exactly the not-yet-due events remain, in
their original order (the `e not in events_to_fire` removal removes
exactly the due events because event equality determines the tick). -/
theorem esTick_events (es : EventSystem) (c : Int) :
    (es.tick c).2.events = es.events.filter (fun e => ¬ (e.tick ≤ c)) := by
  unfold EventSystem.tick
  dsimp only
  split
  · rename_i h
    have hnil : es.events.filter (fun e => e.tick ≤ c) = [] := by
      simpa [List.isEmpty_iff] using h
    have hall : ∀ e ∈ es.events, ¬ (e.tick ≤ c) := by
      intro e he
      have := List.filter_eq_nil_iff.mp hnil e he
      simpa using this
    rw [eq_comm, List.filter_eq_self]
    intro e he
    simpa using hall e he
  · apply Eq.symm
    apply List.filter_congr
    intro e he
    simp [List.mem_filter, he]

/-- Claim C2: deterministic dispatch order — `tick(current_tick)`
dispatches exactly the stored events whose tick is ≤ `current_tick`
(the rest remain stored, in order), the dispatch sequence is sorted by
tick and preserves the original scheduling order among same-tick
events, the returned pairs follow that firing order, and the spec's
concrete scenario (ticks 20, 10, 15 scheduled in that order fire as
10, 15, 20 under `tick(25)`) holds. -/
theorem claim_C2 :
    (∀ (es : EventSystem) (current_tick : Int),
      (es.tick current_tick).1 =
        (sortByTick (es.events.filter (fun e => e.tick ≤ current_tick))).map
          dispatchOne ∧
      (es.tick current_tick).2.events =
        es.events.filter (fun e => ¬ (e.tick ≤ current_tick)) ∧
      List.Perm
        (sortByTick (es.events.filter (fun e => e.tick ≤ current_tick)))
        (es.events.filter (fun e => e.tick ≤ current_tick)) ∧
      (sortByTick (es.events.filter (fun e => e.tick ≤ current_tick))).Pairwise
        (fun a b => a.tick ≤ b.tick) ∧
      ∀ t : Int,
        (sortByTick (es.events.filter (fun e => e.tick ≤ current_tick))).filter
            (fun e => e.tick == t) =
          (es.events.filter (fun e => e.tick ≤ current_tick)).filter
            (fun e => e.tick == t)) ∧
    (esTickOrder.tick 25).1.map Prod.fst = ["event_1", "event_2", "event_0"] := by
  constructor
  · intro es current_tick
    exact ⟨esTick_results es current_tick, esTick_events es current_tick,
      sortByTick_perm _, sortByTick_sorted _, fun t => sortByTick_filter _ t⟩
  · decide

/-- Claim C3: per-event failure isolation — a raising callback's
exception is caught and recorded as that event's paired result, every
other due event is still dispatched with its own result recorded, and
the result list covers all due events (the embedded `tick` is total:
nothing propagates). -/
theorem claim_C3 (es : EventSystem) (current_tick : Int)
    (e : ScheduledEvent) (exc : String) (hmem : e ∈ es.events)
    (hdue : e.tick ≤ current_tick) (hrun : e.run = CbOutcome.raises exc) :
    (e.event_id, TickResult.exc exc) ∈ (es.tick current_tick).1 ∧
    (∀ e' ∈ es.events, e'.tick ≤ current_tick →
      dispatchOne e' ∈ (es.tick current_tick).1) ∧
    (es.tick current_tick).1.length =
      (es.events.filter (fun x => x.tick ≤ current_tick)).length := by
  have hres := esTick_results es current_tick
  have hperm := sortByTick_perm (es.events.filter (fun x => x.tick ≤ current_tick))
  refine ⟨?_, ?_, ?_⟩
  · rw [hres]
    have he' : e ∈ es.events.filter (fun x => x.tick ≤ current_tick) := by
      simp [List.mem_filter, hmem, hdue]
    have he2 := hperm.mem_iff.mpr he'
    have hd : dispatchOne e = (e.event_id, TickResult.exc exc) := by
      unfold dispatchOne
      rw [hrun]
    rw [← hd]
    exact List.mem_map_of_mem _ he2
  · intro e' hm hd
    rw [hres]
    apply List.mem_map_of_mem
    exact hperm.mem_iff.mpr (by simp [List.mem_filter, hm, hd])
  · rw [hres, List.length_map]
    exact hperm.length_eq

/-- Witness for C3: in `esRaises`, the raising `event_0` is recorded as
an exception result and the sibling `event_1` still fires. -/
theorem claim_C3_witness :
    (⟨1, 0, CbOutcome.raises "boom", "event_0"⟩ : ScheduledEvent) ∈
      esRaises.events ∧
    (("event_0", TickResult.exc "boom") ∈ (esRaises.tick 5).1 ∧
     (∀ e' ∈ esRaises.events, e'.tick ≤ 5 →
        dispatchOne e' ∈ (esRaises.tick 5).1) ∧
     (esRaises.tick 5).1.length =
       (esRaises.events.filter (fun x => x.tick ≤ 5)).length) :=
  ⟨by decide,
   claim_C3 esRaises 5 ⟨1, 0, CbOutcome.raises "boom", "event_0"⟩ "boom"
     (by decide) (by decide) (by decide)⟩

/-- Each decimal digit produced is below 10. -/
theorem decDigits_lt (fuel : Nat) : ∀ (n : Nat), ∀ d ∈ decDigits fuel n, d < 10 := by
  induction fuel with
  | zero => intro n; simp [decDigits]
  | succ fuel ih =>
    intro n
    cases n with
    | zero => simp [decDigits]
    | succ m =>
      simp only [decDigits]
      intro d hd
      rcases List.mem_cons.mp hd with rfl | hd'
      · exact Nat.mod_lt _ (by omega)
      · exact ih _ d hd'

/-- With enough fuel, the digit expansion is exact. -/
theorem ofDecDigits_decDigits (fuel : Nat) : ∀ (n : Nat), n ≤ fuel →
    ofDecDigits (decDigits fuel n) = n := by
  induction fuel with
  | zero =>
    intro n h
    have : n = 0 := by omega
    subst this
    simp [decDigits, ofDecDigits]
  | succ fuel ih =>
    intro n h
    cases n with
    | zero => simp [decDigits, ofDecDigits]
    | succ m =>
      simp only [decDigits, ofDecDigits]
      have hdiv : (m + 1) / 10 ≤ fuel := by
        have := Nat.div_lt_self (Nat.succ_pos m) (by omega : 1 < 10)
        omega
      rw [ih _ hdiv]
      exact Nat.mod_add_div (m + 1) 10

/-- `Nat.digitChar` is injective below 10. -/
theorem digitChar_inj_lt (a b : Nat) (ha : a < 10) (hb : b < 10)
    (h : Nat.digitChar a = Nat.digitChar b) : a = b := by
  have hfin : ∀ x y : Fin 10, Nat.digitChar x.val = Nat.digitChar y.val →
      x = y := by decide
  have h2 := hfin ⟨a, ha⟩ ⟨b, hb⟩ h
  exact congrArg Fin.val h2

/-- Mapping `digitChar` over digit lists (all below 10) is injective. -/
theorem map_digitChar_inj : ∀ (l1 l2 : List Nat), (∀ d ∈ l1, d < 10) →
    (∀ d ∈ l2, d < 10) → l1.map Nat.digitChar = l2.map Nat.digitChar →
    l1 = l2 := by
  intro l1
  induction l1 with
  | nil =>
    intro l2 h1 h2 h
    cases l2 with
    | nil => rfl
    | cons b t => simp at h
  | cons a l ih =>
    intro l2 h1 h2 h
    cases l2 with
    | nil => simp at h
    | cons b t =>
      simp only [List.map_cons, List.cons.injEq] at h
      obtain ⟨hab, htl⟩ := h
      have hd := digitChar_inj_lt a b (h1 a (by simp)) (h2 b (by simp)) hab
      subst hd
      rw [ih t (fun d hd => h1 d (by simp [hd]))
        (fun d hd => h2 d (by simp [hd])) htl]

/-- Decimal rendering is injective: distinct numbers give distinct
strings. -/
theorem pyIntStr_inj (a b : Nat) (h : pyIntStr a = pyIntStr b) : a = b := by
  unfold pyIntStr at h
  by_cases ha : a = 0 <;> by_cases hb : b = 0
  · omega
  · exfalso
    rw [if_pos ha, if_neg hb] at h
    have hdata := congrArg String.data h
    have h2 : ((decDigits b b).map Nat.digitChar).reverse = ['0'] := hdata.symm
    have h3 := congrArg List.reverse h2
    simp only [List.reverse_reverse] at h3
    have h4 : decDigits b b = [0] :=
      map_digitChar_inj _ [0] (decDigits_lt _ _) (by simp)
        (by rw [h3]; rfl)
    have h5 := ofDecDigits_decDigits b b le_rfl
    rw [h4] at h5
    simp [ofDecDigits] at h5
    exact hb h5.symm
  · exfalso
    rw [if_neg ha, if_pos hb] at h
    have hdata := congrArg String.data h
    have h2 : ((decDigits a a).map Nat.digitChar).reverse = ['0'] := hdata
    have h3 := congrArg List.reverse h2
    simp only [List.reverse_reverse] at h3
    have h4 : decDigits a a = [0] :=
      map_digitChar_inj _ [0] (decDigits_lt _ _) (by simp)
        (by rw [h3]; rfl)
    have h5 := ofDecDigits_decDigits a a le_rfl
    rw [h4] at h5
    simp [ofDecDigits] at h5
    exact ha h5.symm
  · rw [if_neg ha, if_neg hb] at h
    have hdata := congrArg String.data h
    have h2 : ((decDigits a a).map Nat.digitChar).reverse =
        ((decDigits b b).map Nat.digitChar).reverse := hdata
    have h3 := congrArg List.reverse h2
    simp only [List.reverse_reverse] at h3
    have h4 := map_digitChar_inj _ _ (decDigits_lt _ _) (decDigits_lt _ _) h3
    have ha' := ofDecDigits_decDigits a a le_rfl
    have hb' := ofDecDigits_decDigits b b le_rfl
    rw [← ha', ← hb', h4]

/-- Auto-generated event ids are injective in the counter value. -/
theorem autoEventId_inj (a b : Nat) (h : autoEventId a = autoEventId b) :
    a = b := by
  unfold autoEventId at h
  have hdata := congrArg String.data h
  rw [String.data_append, String.data_append] at hdata
  have h2 := List.append_cancel_left hdata
  exact pyIntStr_inj a b (String.ext h2)

/-- `EventSystem.tick` leaves the id counter alone. -/
theorem esTick_nextid (es : EventSystem) (c : Int) :
    (es.tick c).2.next_event_id = es.next_event_id := by
  unfold EventSystem.tick
  dsimp only
  split <;> rfl

/-- A fresh event system satisfies the auto-id invariant. -/
theorem goodES_init : goodES EventSystem.init := by
  unfold goodES EventSystem.init
  simp

/-- One auto-id-only call preserves the invariant. -/
theorem runOp_good (es : EventSystem) (op : ESOp)
    (hauto : op.suppliedId = Option.none) (h : goodES es) :
    goodES (runOp es op) := by
  obtain ⟨hids, hnd⟩ := h
  cases op with
  | schedule t cb r eid =>
    cases eid with
    | some s => simp [ESOp.suppliedId] at hauto
    | none =>
      unfold runOp EventSystem.schedule
      dsimp only
      by_cases ht : t < 0
      · rw [if_pos ht]
        exact ⟨hids, hnd⟩
      · rw [if_neg ht]
        dsimp only
        constructor
        · intro e he
          rcases List.mem_append.mp he with h1 | h2
          · obtain ⟨k, hk, hkid⟩ := hids e h1
            exact ⟨k, by dsimp only; omega, hkid⟩
          · have he2 : e = ⟨t, cb, r, autoEventId es.next_event_id⟩ := by
              simpa using h2
            subst he2
            exact ⟨es.next_event_id, by dsimp only; omega, rfl⟩
        · rw [List.map_append]
          apply List.Nodup.append hnd (by simp)
          intro x hx1 hx2
          obtain ⟨e', he', hxe⟩ := List.mem_map.mp hx1
          obtain ⟨k, hk, hkid⟩ := hids e' he'
          have hx2' : x = autoEventId es.next_event_id := by simpa using hx2
          subst hxe
          rw [hkid] at hx2'
          have h3 := autoEventId_inj _ _ hx2'
          omega
  | tick c =>
    unfold runOp
    dsimp only
    constructor
    · intro e he
      rw [esTick_events] at he
      have he2 := (List.mem_filter.mp he).1
      obtain ⟨k, hk, hkid⟩ := hids e he2
      rw [esTick_nextid]
      exact ⟨k, hk, hkid⟩
    · rw [esTick_events]
      exact List.Nodup.sublist ((List.filter_sublist _).map _) hnd
  | cancel eid =>
    unfold runOp EventSystem.cancel_event
    dsimp only
    split
    · constructor
      · intro e he
        have he2 := (List.eraseP_sublist es.events).mem he
        exact hids e he2
      · exact List.Nodup.sublist ((List.eraseP_sublist _).map _) hnd
    · exact ⟨hids, hnd⟩
  | clear =>
    unfold runOp EventSystem.clear_all_events
    dsimp only
    constructor
    · intro e he
      simp at he
    · simp

/-- Folding auto-id-only calls from any invariant-satisfying state
preserves the invariant. -/
theorem foldl_runOp_good : ∀ (ops : List ESOp) (es : EventSystem),
    (∀ op ∈ ops, op.suppliedId = Option.none) → goodES es →
    goodES (ops.foldl runOp es) := by
  intro ops
  induction ops with
  | nil =>
    intro es h h0
    simpa using h0
  | cons op ops ih =>
    intro es h h0
    simp only [List.foldl_cons]
    exact ih _ (fun o ho => h o (List.mem_cons_of_mem _ ho))
      (runOp_good es op (h op (List.mem_cons_self _ _)) h0)

/-- Claim C5 (amended): after any sequence of schedule / tick / cancel /
clear calls in which every schedule call omits `event_id`, the stored
event ids are pairwise distinct — auto-generated ids never collide with
each other.  (As stated over caller-supplied ids too the claim is
false: `schedule` performs no uniqueness check, see the
counterexample.) -/
theorem claim_C5 (ops : List ESOp)
    (h : ∀ op ∈ ops, op.suppliedId = Option.none) :
    ((runOps ops).events.map (fun e => e.event_id)).Nodup :=
  (foldl_runOp_good ops EventSystem.init h goodES_init).2

/-- Counterexample for C5 as frozen: a caller-supplied `"event_0"`
followed by one auto-generated id leaves two stored events with the
same id. -/
theorem claim_C5_counterexample :
    ((runOps collidingOps).events.map (fun e => e.event_id)) =
      ["event_0", "event_0"] ∧
    ¬ ((runOps collidingOps).events.map (fun e => e.event_id)).Nodup := by
  constructor
  · decide
  · decide

/-- Witness for C5 over a concrete auto-id-only call sequence with
interleaved tick and cancel. -/
theorem claim_C5_witness :
    (∀ op ∈ autoOps, op.suppliedId = Option.none) ∧
    ((runOps autoOps).events.map (fun e => e.event_id)).Nodup :=
  ⟨by decide, claim_C5 autoOps (by decide)⟩

/-- Writing one key of a property dict leaves every other key's value
unchanged. -/
theorem dictGet_dictSet_ne (props : PropDict) (key k : String) (v : PValue)
    (h : k ≠ key) : dictGet (dictSet props key v) k = dictGet props k := by
  induction props with
  | nil => simp [dictSet, dictGet, Ne.symm h]
  | cons p rest ih =>
    obtain ⟨pk, pv⟩ := p
    simp only [dictSet]
    by_cases hp : pk = key
    · rw [if_pos hp]
      subst hp
      simp [dictGet, Ne.symm h]
    · rw [if_neg hp]
      simp [dictGet, ih]

/-- Claim C4 (amended): `patrol_behavior` never changes the NPC's id or
position and touches no property other than
`"current_waypoint_index"` — either the properties are returned intact
or only that key is rewritten (which does happen when the NPC stands on
its current waypoint, see the counterexample; `idle_behavior` and
`attack_on_sight_behavior` contain no writes at all and are embedded as
read-only functions). -/
theorem claim_C4 (npc : Entity) (world : WorldState) (a : Action)
    (npc' : Entity) (h : patrol_behavior npc world = Except.ok (a, npc')) :
    npc'.id = npc.id ∧ npc'.position = npc.position ∧
    (∀ k, k ≠ "current_waypoint_index" →
      dictGet npc'.properties k = dictGet npc.properties k) ∧
    (npc'.properties = npc.properties ∨
     ∃ i : Int, npc'.properties =
       dictSet npc.properties "current_waypoint_index" (PValue.int i)) := by
  unfold patrol_behavior at h
  simp only [bind, Except.bind] at h
  repeat' split at h
  all_goals
    try exact Except.noConfusion h
  all_goals
    simp only [Except.ok.injEq, Prod.mk.injEq] at h
    obtain ⟨-, hn⟩ := h
    subst hn
  all_goals
    try exact ⟨rfl, rfl, fun k hk => rfl, Or.inl rfl⟩
  all_goals
    refine ⟨rfl, rfl, ?_, Or.inr ⟨_, rfl⟩⟩
    intro k hk
    exact dictGet_dictSet_ne npc.properties "current_waypoint_index" k _ hk

/-- Counterexample for C4 as frozen: with the NPC standing exactly on
its current waypoint, the `patrol_behavior` call itself rewrites
`properties["current_waypoint_index"]` — the properties are not
identical before and after. -/
theorem claim_C4_counterexample :
    (patrol_behavior patrolNpc patrolWorld).toOption.map
        (fun p => p.2.properties) =
      some (dictSet patrolNpc.properties "current_waypoint_index"
        (PValue.int 1)) ∧
    ¬ (patrol_behavior patrolNpc patrolWorld).toOption.map
        (fun p => p.2.properties) = some patrolNpc.properties := by
  constructor
  · decide
  · decide

/-- Witness for C4 at the patrol fixture: the call succeeds and the
amended frame conditions hold there. -/
theorem claim_C4_witness :
    patrol_behavior patrolNpc patrolWorld =
      Except.ok (patrolAct, patrolNpcAfter) ∧
    patrolNpcAfter.id = patrolNpc.id ∧
    patrolNpcAfter.position = patrolNpc.position ∧
    dictGet patrolNpcAfter.properties "waypoints" =
      dictGet patrolNpc.properties "waypoints" :=
  ⟨by decide,
   (claim_C4 patrolNpc patrolWorld patrolAct patrolNpcAfter (by decide)).1,
   (claim_C4 patrolNpc patrolWorld patrolAct patrolNpcAfter (by decide)).2.1,
   (claim_C4 patrolNpc patrolWorld patrolAct patrolNpcAfter
      (by decide)).2.2.1 "waypoints" (by decide)⟩

end Dnd
